import Mathlib

/-!
Verification development for the ABI function-resolution and call-encoding
core of `web3/_utils/contracts.py`.

The definitions below are a shallow embedding of that module.  Helper
functions that the module imports from `web3._utils.abi`, `web3._utils.abi`'s
normalizers, `eth_utils` and the external binary codec are not part of the
given source tree; those are modelled from the specification (each such
definition carries a doc comment starting with `Modelled from the spec:`).
Everything else is translated directly from `contracts.py`.

Python `Any`-typed argument values are embedded as an abstract type `V`;
the external codec is embedded as a pair of parameters: an encodability
predicate `is_encodable : String → V → Bool` over type-descriptor strings,
and an encoder `encode : List String → List V → List Nat` producing a byte
list.  Bytes are plain `Nat`s (meaningful values are `< 256`).
-/

/-- One input parameter of an ABI entry: a name and a type-descriptor string. -/
structure ABIParam where
  name : String
  type : String
deriving DecidableEq

/-- An ABI entry as used by `contracts.py`: the entry kind (`"function"`,
`"event"`, `"fallback"`, `"receive"`, ...), its name, its ordered input
parameters, and the optional `payable` flag.  `payable := none` embeds a
Python ABI dictionary that has no `"payable"` key. -/
structure ABIEntry where
  type : String
  name : String
  inputs : List ABIParam
  payable : Option Bool
deriving DecidableEq

/-- The staged diagnosis computed by `find_matching_fn_abi` on failure,
one constructor per diagnosis string of the source. -/
inductive Diagnosis where
  | improperNumberOfArguments
  | noMatchingArgumentTypes
  | ambiguousEncoding
deriving DecidableEq

/-- The structured content of the `ValidationError` message raised by
`find_matching_fn_abi`: the requested identifier, the signatures of all
name-matching candidates, and the staged diagnosis. -/
structure MatchErrorInfo where
  fnIdentifier : String
  matchingSignatures : List String
  diagnosis : Diagnosis
deriving DecidableEq

/-- The exceptions the embedded code can raise, one constructor per distinct
raise site/exception of the source.  `matchValidation` and
`payableValidation` are both `ValidationError`s in Python; `dataConflict`,
`eventNotFound` and `multipleEventsFound` are `ValueError`s;
`unsupportedIdentifier`, `notEncodable`, `mergeTypeError` and
`noneTypeNotIterable` are `TypeError`s (`noneTypeNotIterable` embeds the
Python dynamic error raised by evaluating `'value' in None`);
`unboundDiagnosis` embeds the `UnboundLocalError` that Python would raise if
none of the diagnosis branches of `find_matching_fn_abi` assigned
`diagnosis` before the message is interpolated. -/
inductive Err where
  | matchValidation (info : MatchErrorInfo)
  | unboundDiagnosis
  | unsupportedIdentifier
  | fallbackNotFound
  | receiveNotFound
  | eventNotFound
  | multipleEventsFound
  | notEncodable
  | mergeTypeError
  | payableValidation
  | dataConflict
  | noneTypeNotIterable
deriving DecidableEq

/-- A transaction-request mapping.  The fields the source reads or writes
(`'to'`, `'value'`, `'data'`) are explicit (`toAddr` embeds the `'to'` key,
which is a reserved word in Lean); every other field of the Python dict is
carried opaquely in `rest`.  `none` embeds an absent key. -/
structure TxParams where
  toAddr : Option String
  value : Option Int
  data : Option String
  rest : List (String × String)
deriving DecidableEq

/-- The slice of the `Web3` object that `contracts.py` consults: the codec's
encodability predicate and encoder, the normalizer chain (collapsed to one
type-directed transform applied positionally, per the spec), and the
256-bit hash used for selectors. -/
structure W3 (V : Type) where
  is_encodable : String → V → Bool
  encode : List String → List V → List Nat
  normalizeOne : String → V → V
  keccak : String → List Nat

/-- The function-invocation identifier: a plain name string, the `FallbackFn`
marker, the `ReceiveFn` marker, or any other (non-text) Python value. -/
inductive FnId where
  | name (s : String)
  | fallbackFn
  | receiveFn
  | nonTextIdentifier
deriving DecidableEq

/-- Modelled from the spec: the entry-kind filter of the filter pipeline
(`filter_by_type` in `web3._utils.abi`), an order-preserving pure filter. -/
def filter_by_type (t : String) (contract_abi : List ABIEntry) : List ABIEntry :=
  contract_abi.filter (fun e => e.type == t)

/-- Modelled from the spec: the exact-name filter of the filter pipeline
(`filter_by_name` in `web3._utils.abi`).  Fallback and Receive entries are
sentinels carrying no name, recognized only by invocation kind, so they never
match a name filter. -/
def filter_by_name (name : String) (contract_abi : List ABIEntry) : List ABIEntry :=
  contract_abi.filter
    (fun e => e.type != "fallback" && e.type != "receive" && e.name == name)

/-- Modelled from the spec: the exact input-argument-count filter of the
filter pipeline (`filter_by_argument_count` in `web3._utils.abi`). -/
def filter_by_argument_count (n : Nat) (contract_abi : List ABIEntry) : List ABIEntry :=
  contract_abi.filter (fun e => e.inputs.length == n)

/-- Modelled from the spec: the argument-name subset filter of the filter
pipeline (`filter_by_argument_name` in `web3._utils.abi`): keeps entries
whose declared parameter names cover every provided argument name. -/
def filter_by_argument_name (argument_names : List String) (contract_abi : List ABIEntry) :
    List ABIEntry :=
  contract_abi.filter
    (fun e => argument_names.all (fun nm => (e.inputs.map (fun p => p.name)).contains nm))

/-- Modelled from the spec: `get_abi_input_types` of `web3._utils.abi` —
the ordered declared input types of an entry. -/
def get_abi_input_types (abi : ABIEntry) : List String :=
  abi.inputs.map (fun p => p.type)

/-- Modelled from the spec: `abi_to_signature` of `web3._utils.abi` — the
canonical signature string: name plus parenthesized comma-joined parameter
types, no spaces. -/
def abi_to_signature (abi : ABIEntry) : String :=
  abi.name ++ "(" ++ String.intercalate "," (get_abi_input_types abi) ++ ")"

/-- First kwarg value bound to a given parameter name, if any. -/
def lookupKwarg {V : Type} (kwargs : List (String × V)) (nm : String) : Option V :=
  (kwargs.find? (fun p => p.1 == nm)).map (fun p => p.2)

/-- Modelled from the spec: `merge_args_and_kwargs` of `web3._utils.abi`.
Positional plus named argument count must equal the entry's input count and
the named keys must map 1:1 onto the declared names of the parameters not
already filled positionally; the result is the argument list aligned to the
entry's declared parameter order.  `none` embeds the `TypeError` the source
helper raises on violation. -/
def merge_args_and_kwargs {V : Type} (abi : ABIEntry) (args : List V)
    (kwargs : List (String × V)) : Option (List V) :=
  if args.length + kwargs.length = abi.inputs.length then
    ((abi.inputs.drop args.length).mapM (fun p => lookupKwarg kwargs p.name)).map
      (fun restArgs => args ++ restArgs)
  else
    none

/-- Modelled from the spec: `check_if_arguments_can_be_encoded` of
`web3._utils.abi` — true when the (positional, named) argument set merges
against the entry's parameters and each merged value is encodable against
the corresponding declared type. -/
def check_if_arguments_can_be_encoded {V : Type} (abi : ABIEntry)
    (is_encodable : String → V → Bool) (args : List V) (kwargs : List (String × V)) : Bool :=
  match merge_args_and_kwargs abi args kwargs with
  | none => false
  | some arguments =>
      ((get_abi_input_types abi).zip arguments).all (fun tv => is_encodable tv.1 tv.2)

/-- Modelled from the spec: the encodability filter of the filter pipeline
(`filter_by_encodability` in `web3._utils.abi`). -/
def filter_by_encodability {V : Type} (is_encodable : String → V → Bool) (args : List V)
    (kwargs : List (String × V)) (contract_abi : List ABIEntry) : List ABIEntry :=
  contract_abi.filter (fun e => check_if_arguments_can_be_encoded e is_encodable args kwargs)

/-- Hex digit character for a nibble (lowercase, as `eth_utils` produces). -/
def hexDigitChar (n : Nat) : Char :=
  if n < 10 then Char.ofNat (48 + n) else Char.ofNat (87 + n)

/-- Two hex characters of one byte. -/
def byteHexChars (b : Nat) : List Char :=
  [hexDigitChar (b / 16), hexDigitChar (b % 16)]

/-- Modelled from the spec: `encode_hex` of `eth_utils` — the `0x`-prefixed
lowercase hex string of a byte sequence. -/
def encode_hex (bs : List Nat) : String :=
  String.mk ('0' :: 'x' :: (bs.map byteHexChars).flatten)

/-- Modelled from the spec: `to_hex` of `web3._utils.encoding` on a byte
sequence — same `0x`-prefixed hex string. -/
def to_hex (bs : List Nat) : String :=
  encode_hex bs

/-- Numeric value of a lowercase hex character. -/
def hexCharVal (c : Char) : Nat :=
  if 97 ≤ c.toNat then c.toNat - 87 else c.toNat - 48

/-- Byte list of a sequence of hex characters, two characters per byte. -/
def hexPairsToBytes : List Char → List Nat
  | c1 :: c2 :: restChars => (hexCharVal c1 * 16 + hexCharVal c2) :: hexPairsToBytes restChars
  | _ => []

/-- Whether a string starts with the two characters `0x`. -/
def strHas0x (s : String) : Bool :=
  match s.data with
  | '0' :: 'x' :: _ => true
  | _ => false

/-- Modelled from the spec: the `HexBytes` constructor — parses a (possibly
`0x`-prefixed) hex string back into its byte sequence. -/
def hexBytes (s : String) : List Nat :=
  hexPairsToBytes (if strHas0x s then s.data.drop 2 else s.data)

/-- Modelled from the spec: `add_0x_prefix` of `eth_utils`. -/
def add_0x_prefix (s : String) : String :=
  if strHas0x s then s else String.mk ('0' :: 'x' :: s.data)

/-- Modelled from the spec: `function_abi_to_4byte_selector` of `eth_utils`
— the first 4 bytes of the hash of the canonical signature string. -/
def function_abi_to_4byte_selector (keccak : String → List Nat) (fn_abi : ABIEntry) :
    List Nat :=
  (keccak (abi_to_signature fn_abi)).take 4

/-- Modelled from the spec: `map_abi_data` with the source's normalizer
chain — the chain is collapsed into one type-directed transform, applied
positionally against each parameter's declared type. -/
def map_abi_data {V : Type} (normalizeOne : String → V → V) (types : List String)
    (args : List V) : List V :=
  List.zipWith normalizeOne types args

/-- Modelled from the spec: `get_fallback_func_abi` of `web3._utils.abi` —
the unique Fallback sentinel entry, or NotFound when the ABI declares none.
A `none` contract ABI embeds Python iterating over `None` (`TypeError`). -/
def get_fallback_func_abi (contract_abi : Option (List ABIEntry)) : Except Err ABIEntry :=
  match contract_abi with
  | none => .error .noneTypeNotIterable
  | some abi =>
      match filter_by_type "fallback" abi with
      | fb :: _ => .ok fb
      | [] => .error .fallbackNotFound

/-- Modelled from the spec: `get_receive_func_abi` of `web3._utils.abi` —
the unique Receive sentinel entry, or NotFound when the ABI declares none. -/
def get_receive_func_abi (contract_abi : Option (List ABIEntry)) : Except Err ABIEntry :=
  match contract_abi with
  | none => .error .noneTypeNotIterable
  | some abi =>
      match filter_by_type "receive" abi with
      | rc :: _ => .ok rc
      | [] => .error .receiveNotFound

/-- Embedding of `find_matching_event_abi` (contracts.py lines 76-100):
filter by kind `event`, optionally by name, optionally by argument names;
exactly one survivor is returned, zero raises `ValueError` "No matching
events found", more than one raises `ValueError` "Multiple events found". -/
def find_matching_event_abi (abi : List ABIEntry) (event_name : Option String)
    (argument_names : Option (List String)) : Except Err ABIEntry :=
  let c0 := filter_by_type "event" abi
  let c1 := match event_name with
    | some nm => filter_by_name nm c0
    | none => c0
  let event_abi_candidates := match argument_names with
    | some ns => filter_by_argument_name ns c1
    | none => c1
  match event_abi_candidates with
  | [e] => .ok e
  | [] => .error .eventNotFound
  | _ => .error .multipleEventsFound

/-- Embedding of `find_matching_fn_abi` (contracts.py lines 103-154).
Fallback/Receive identifiers return the sentinel entry directly; a non-text
identifier raises `TypeError`; otherwise the name → argument-count →
encodability filter chain runs and a single survivor is returned, any other
outcome re-probes the intermediate stages to build the staged diagnosis and
raises a `ValidationError` carrying it. -/
def find_matching_fn_abi {V : Type} (contract_abi : Option (List ABIEntry))
    (is_encodable : String → V → Bool) (fn_identifier : FnId) (args : List V)
    (kwargs : List (String × V)) : Except Err ABIEntry :=
  let num_arguments := args.length + kwargs.length
  match fn_identifier with
  | .fallbackFn => get_fallback_func_abi contract_abi
  | .receiveFn => get_receive_func_abi contract_abi
  | .nonTextIdentifier => .error .unsupportedIdentifier
  | .name fn_name =>
      match contract_abi with
      | none => .error .noneTypeNotIterable
      | some abi =>
          let function_candidates :=
            filter_by_encodability is_encodable args kwargs
              (filter_by_argument_count num_arguments (filter_by_name fn_name abi))
          match function_candidates with
          | [fn] => .ok fn
          | _ =>
              let matching_identifiers := filter_by_name fn_name abi
              let matching_function_signatures := matching_identifiers.map abi_to_signature
              let arg_count_matches :=
                (filter_by_argument_count num_arguments matching_identifiers).length
              let encoding_matches :=
                (filter_by_encodability is_encodable args kwargs matching_identifiers).length
              let diagnosis : Option Diagnosis :=
                if arg_count_matches = 0 then some .improperNumberOfArguments
                else if encoding_matches = 0 then some .noMatchingArgumentTypes
                else if 1 < encoding_matches then some .ambiguousEncoding
                else none
              match diagnosis with
              | some d =>
                  .error (.matchValidation
                    ⟨fn_name, matching_function_signatures, d⟩)
              | none => .error .unboundDiagnosis

/-- Embedding of `encode_abi` (contracts.py lines 157-187): re-validate
encodability of the chosen entry against the final argument list (raising
`TypeError` otherwise), normalize, delegate to the binary codec, and return
the hex output — appended after the caller-supplied data prefix when one was
given and truthy, plain `0x`-prefixed hex otherwise. -/
def encode_abi {V : Type} (w3 : W3 V) (abi : ABIEntry) (arguments : List V)
    (data : Option String) : Except Err String :=
  let argument_types := get_abi_input_types abi
  if check_if_arguments_can_be_encoded abi w3.is_encodable arguments [] = false then
    .error .notEncodable
  else
    let normalized_arguments := map_abi_data w3.normalizeOne argument_types arguments
    let encoded_arguments := w3.encode argument_types normalized_arguments
    match data with
    | none => .ok (encode_hex encoded_arguments)
    | some d =>
        if d = "" then .ok (encode_hex encoded_arguments)
        else .ok (to_hex (hexBytes d ++ encoded_arguments))

/-- Modelled from the spec: `get_aligned_abi_inputs` of `web3._utils.abi`.
The spec requires only that the final argument values be aligned to the
entry's declared parameter order, which `merge_args_and_kwargs` already
establishes, so the argument list is returned unchanged alongside the
declared types. -/
def get_aligned_abi_inputs {V : Type} (abi : ABIEntry) (args : List V) :
    List String × List V :=
  (get_abi_input_types abi, args)

/-- Embedding of `get_fallback_function_info` (contracts.py lines 256-263):
the Fallback entry (resolved from the contract ABI when not supplied), an
empty selector, and an empty argument tuple. -/
def get_fallback_function_info {V : Type} (contract_abi : Option (List ABIEntry))
    (fn_abi : Option ABIEntry) : Except Err (ABIEntry × String × List V) :=
  match fn_abi with
  | some fa => .ok (fa, encode_hex [], [])
  | none => (get_fallback_func_abi contract_abi).map (fun fa => (fa, encode_hex [], []))

/-- Embedding of `get_receive_function_info` (contracts.py lines 266-273):
the Receive entry (resolved from the contract ABI when not supplied), an
empty selector, and an empty argument tuple. -/
def get_receive_function_info {V : Type} (contract_abi : Option (List ABIEntry))
    (fn_abi : Option ABIEntry) : Except Err (ABIEntry × String × List V) :=
  match fn_abi with
  | some fa => .ok (fa, encode_hex [], [])
  | none => (get_receive_func_abi contract_abi).map (fun fa => (fa, encode_hex [], []))

/-- Embedding of `get_function_info` (contracts.py lines 276-300): resolve
the entry when not supplied, compute the hex selector from the entry's
signature hash, merge positional and named arguments, align them, and return
the triple. -/
def get_function_info {V : Type} (fn_name : String) (is_encodable : String → V → Bool)
    (keccak : String → List Nat) (contract_abi : Option (List ABIEntry))
    (fn_abi : Option ABIEntry) (args : Option (List V))
    (kwargs : Option (List (String × V))) : Except Err (ABIEntry × String × List V) :=
  let args := args.getD []
  let kwargs := kwargs.getD []
  let resolved : Except Err ABIEntry :=
    match fn_abi with
    | some fa => .ok fa
    | none => find_matching_fn_abi contract_abi is_encodable (.name fn_name) args kwargs
  match resolved with
  | .error e => .error e
  | .ok fa =>
      let fn_selector := encode_hex (function_abi_to_4byte_selector keccak fa)
      match merge_args_and_kwargs fa args kwargs with
      | none => .error .mergeTypeError
      | some fn_arguments =>
          .ok (fa, fn_selector, (get_aligned_abi_inputs fa fn_arguments).2)

/-- Embedding of `encode_transaction_data` (contracts.py lines 233-253):
dispatch on the identifier kind to obtain (entry, selector, arguments), then
encode and `0x`-prefix the result. -/
def encode_transaction_data {V : Type} (w3 : W3 V) (fn_identifier : FnId)
    (contract_abi : Option (List ABIEntry)) (fn_abi : Option ABIEntry)
    (args : Option (List V)) (kwargs : Option (List (String × V))) : Except Err String :=
  let info : Except Err (ABIEntry × String × List V) :=
    match fn_identifier with
    | .fallbackFn => get_fallback_function_info contract_abi fn_abi
    | .receiveFn => get_receive_function_info contract_abi fn_abi
    | .name s => get_function_info s w3.is_encodable w3.keccak contract_abi fn_abi args kwargs
    | .nonTextIdentifier => .error .unsupportedIdentifier
  match info with
  | .error e => .error e
  | .ok (fa, fn_selector, fn_arguments) =>
      (encode_abi w3 fa fn_arguments (some fn_selector)).map (fun s => add_0x_prefix s)

/-- Embedding of `validate_payable` (contracts.py lines 303-314): raise
`ValidationError` when non-zero ether is sent to an entry whose ABI carries
an explicit `payable = False` flag.  The parameter is declared `TxParams` in
the source but its only call site passes a possibly-`None` value; evaluating
`'value' in None` raises `TypeError` in Python, embedded by the `none`
branch. -/
def validate_payable (transaction : Option TxParams) (abi : ABIEntry) : Except Err Unit :=
  match transaction with
  | none => .error .noneTypeNotIterable
  | some t =>
      match t.value with
      | none => .ok ()
      | some v =>
          if v ≠ 0 then
            match abi.payable with
            | some p => if !p then .error .payableValidation else .ok ()
            | none => .ok ()
          else .ok ()

/-- Embedding of `prepare_transaction` (contracts.py lines 190-230): resolve
the entry when not supplied, validate payability, copy the base transaction
into a fresh request, reject a pre-populated `'data'` key, default the
`'to'` key to the address when one is given, then encode and store the call
data. -/
def prepare_transaction {V : Type} (address : String) (w3 : W3 V) (fn_identifier : FnId)
    (contract_abi : Option (List ABIEntry)) (fn_abi : Option ABIEntry)
    (transaction : Option TxParams) (fn_args : Option (List V))
    (fn_kwargs : Option (List (String × V))) : Except Err TxParams :=
  let resolved : Except Err ABIEntry :=
    match fn_abi with
    | some fa => .ok fa
    | none =>
        find_matching_fn_abi contract_abi w3.is_encodable fn_identifier
          (fn_args.getD []) (fn_kwargs.getD [])
  match resolved with
  | .error e => .error e
  | .ok fa =>
      match validate_payable transaction fa with
      | .error e => .error e
      | .ok _ =>
          let prepared_transaction : TxParams :=
            match transaction with
            | none => ⟨none, none, none, []⟩
            | some t => t
          if prepared_transaction.data.isSome then .error .dataConflict
          else
            let prepared_transaction :=
              if address ≠ "" then
                match prepared_transaction.toAddr with
                | some _ => prepared_transaction
                | none => { prepared_transaction with toAddr := some address }
              else prepared_transaction
            match encode_transaction_data w3 fn_identifier contract_abi (some fa)
                fn_args fn_kwargs with
            | .error e => .error e
            | .ok d => .ok { prepared_transaction with data := some d }

/-- Concrete value domain and `W3` instance used by the closed witness
theorems: every value is encodable, the codec output is a fixed byte, the
normalizer is the identity and the hash is a fixed five-byte sequence. -/
def natW3 : W3 Nat :=
  { is_encodable := fun _ _ => true
    encode := fun _ _ => [171]
    normalizeOne := fun _ v => v
    keccak := fun _ => [1, 2, 3, 4, 5] }

/-- A `W3` instance whose codec rejects every value, for exercising the
not-encodable paths in witnesses. -/
def natW3reject : W3 Nat :=
  { is_encodable := fun _ _ => false
    encode := fun _ _ => [171]
    normalizeOne := fun _ v => v
    keccak := fun _ => [1, 2, 3, 4, 5] }

/-- Concrete single-parameter function entry `f(uint256)`, not payable. -/
def fnEntryF : ABIEntry :=
  { type := "function", name := "f", inputs := [{ name := "a", type := "uint256" }]
    payable := some false }

/-- Concrete two-parameter function entry `g(uint256,uint256)`. -/
def fnEntryG : ABIEntry :=
  { type := "function", name := "g"
    inputs := [{ name := "a", type := "uint256" }, { name := "b", type := "uint256" }]
    payable := some true }

/-- Concrete event entry `E(uint256)`. -/
def evEntryE : ABIEntry :=
  { type := "event", name := "E", inputs := [{ name := "a", type := "uint256" }]
    payable := none }

/-- Concrete Fallback sentinel entry. -/
def fallbackEntry : ABIEntry :=
  { type := "fallback", name := "", inputs := [], payable := some false }

/-- Concrete Receive sentinel entry. -/
def receiveEntry : ABIEntry :=
  { type := "receive", name := "", inputs := [], payable := some true }

/-- Concrete base transaction with a pre-populated `'data'` key and a
non-zero `'value'`. -/
def txDataValue : TxParams :=
  { toAddr := none, value := some 1, data := some "0xdd", rest := [] }

/-- Concrete base transaction carrying a caller-supplied destination and an
unrelated extra field. -/
def txWithTo : TxParams :=
  { toAddr := some "0xcafe", value := none, data := none, rest := [("gas", "21000")] }

/-- Concrete base transaction with a pre-populated `'data'` key only. -/
def txDataOnly : TxParams :=
  { toAddr := none, value := none, data := some "0xdd", rest := [] }

/-- Concrete ABI holding the two function entries. -/
def abiFnOnly : List ABIEntry := [fnEntryF, fnEntryG]

/-- Concrete ABI holding function, event, fallback and receive entries. -/
def abiFull : List ABIEntry := [fnEntryF, fnEntryG, evEntryE, fallbackEntry, receiveEntry]

/-- Decoding a hex digit character recovers the nibble. -/
theorem hexCharVal_hexDigitChar : ∀ n, n < 16 → hexCharVal (hexDigitChar n) = n := by
  decide

/-- Parsing the hex characters of a byte list in pairs recovers the bytes. -/
theorem hexPairsToBytes_flatten (bs : List Nat) (h : ∀ b ∈ bs, b < 256) :
    hexPairsToBytes ((bs.map byteHexChars).flatten) = bs := by
  induction bs with
  | nil => rfl
  | cons b bt ih =>
      have hb : b < 256 := h b (List.mem_cons_self b bt)
      have h1 : b / 16 < 16 := Nat.div_lt_of_lt_mul (by omega)
      have h2 : b % 16 < 16 := Nat.mod_lt _ (by omega)
      simp only [List.map_cons, List.flatten_cons, byteHexChars, List.cons_append,
        List.nil_append, hexPairsToBytes, hexCharVal_hexDigitChar _ h1,
        hexCharVal_hexDigitChar _ h2]
      refine List.cons_eq_cons.mpr ⟨by omega, ih (fun x hx => h x (List.mem_cons_of_mem _ hx))⟩

/-- Parsing a hex-encoded byte list recovers the bytes. -/
theorem hexBytes_encode_hex (bs : List Nat) (h : ∀ b ∈ bs, b < 256) :
    hexBytes (encode_hex bs) = bs := by
  have hrfl : hexBytes (encode_hex bs) = hexPairsToBytes ((bs.map byteHexChars).flatten) := rfl
  rw [hrfl]
  exact hexPairsToBytes_flatten bs h

/-- A hex-encoded byte list is already `0x`-prefixed. -/
theorem add_0x_prefix_encode_hex (bs : List Nat) :
    add_0x_prefix (encode_hex bs) = encode_hex bs := rfl

/-- A hex-encoded byte list is never the empty string. -/
theorem encode_hex_ne_empty (bs : List Nat) : encode_hex bs ≠ "" := by
  intro h
  have h2 : ('0' :: 'x' :: (bs.map byteHexChars).flatten) = ([] : List Char) :=
    congrArg String.data h
  exact absurd h2 (by simp)

/-- A successful merge certifies that the invocation arity matches the
entry's input count. -/
theorem merge_some_count {V : Type} (abi : ABIEntry) (args : List V)
    (kwargs : List (String × V)) (l : List V)
    (h : merge_args_and_kwargs abi args kwargs = some l) :
    args.length + kwargs.length = abi.inputs.length := by
  unfold merge_args_and_kwargs at h
  by_cases hc : args.length + kwargs.length = abi.inputs.length
  · exact hc
  · simp [hc] at h

/-- Merging a purely positional argument list of matching arity returns the
list unchanged. -/
theorem merge_args_nil {V : Type} (abi : ABIEntry) (args : List V)
    (h : args.length = abi.inputs.length) :
    merge_args_and_kwargs abi args [] = some args := by
  unfold merge_args_and_kwargs
  rw [if_pos (by simpa using h)]
  rw [List.drop_eq_nil_iff.mpr (by omega)]
  simp [List.mapM, List.mapM.loop]

/-- Encodability of an argument set against an entry certifies that the
arity matches the entry's input count. -/
theorem check_true_count {V : Type} (abi : ABIEntry) (is_encodable : String → V → Bool)
    (args : List V) (kwargs : List (String × V))
    (h : check_if_arguments_can_be_encoded abi is_encodable args kwargs = true) :
    args.length + kwargs.length = abi.inputs.length := by
  unfold check_if_arguments_can_be_encoded at h
  cases hm : merge_args_and_kwargs abi args kwargs with
  | none => rw [hm] at h; simp at h
  | some l => exact merge_some_count _ _ _ _ hm

/-- The encodability filter subsumes the arity filter: running it after the
argument-count stage gives the same list as running it directly on the
name-matching candidates. -/
theorem filter_by_encodability_arg_count {V : Type} (is_encodable : String → V → Bool)
    (args : List V) (kwargs : List (String × V)) (l : List ABIEntry) :
    filter_by_encodability is_encodable args kwargs
      (filter_by_argument_count (args.length + kwargs.length) l) =
    filter_by_encodability is_encodable args kwargs l := by
  unfold filter_by_encodability filter_by_argument_count
  rw [List.filter_filter]
  apply List.filter_congr
  intro e _
  cases hc : check_if_arguments_can_be_encoded e is_encodable args kwargs with
  | false => simp [hc]
  | true =>
      have := check_true_count e is_encodable args kwargs hc
      simp [hc, this]

/-- An entry with no inputs accepts the empty argument set. -/
theorem check_empty {V : Type} (abi : ABIEntry) (is_encodable : String → V → Bool)
    (h : abi.inputs = []) :
    check_if_arguments_can_be_encoded abi is_encodable ([] : List V) [] = true := by
  unfold check_if_arguments_can_be_encoded
  rw [merge_args_nil abi ([] : List V) (by simp [h])]
  simp [get_abi_input_types, h]

/-- Successful run of `encode_abi` against a hex selector prefix: the output
is the hex encoding of the selector bytes followed by the codec's encoding
of the normalized arguments. -/
theorem encode_abi_ok {V : Type} (w3 : W3 V) (fa : ABIEntry) (args : List V)
    (selBytes : List Nat) (hsel : ∀ b ∈ selBytes, b < 256)
    (hcheck : check_if_arguments_can_be_encoded fa w3.is_encodable args [] = true) :
    encode_abi w3 fa args (some (encode_hex selBytes)) =
      .ok (encode_hex (selBytes ++ w3.encode (get_abi_input_types fa)
        (map_abi_data w3.normalizeOne (get_abi_input_types fa) args))) := by
  unfold encode_abi
  rw [hcheck]
  have hne : encode_hex selBytes ≠ "" := encode_hex_ne_empty selBytes
  simp [hne, to_hex, hexBytes_encode_hex selBytes hsel]

/-- Unfolding equation for the name path of `find_matching_fn_abi`: the
full-chain candidates decide between the success arm and the staged-diagnosis
error arm. -/
theorem find_name_eq {V : Type} (abi : List ABIEntry) (is_encodable : String → V → Bool)
    (fn_name : String) (args : List V) (kwargs : List (String × V)) :
    find_matching_fn_abi (some abi) is_encodable (.name fn_name) args kwargs =
      (match
        filter_by_encodability is_encodable args kwargs
          (filter_by_argument_count (args.length + kwargs.length)
            (filter_by_name fn_name abi)) with
      | [fn] => Except.ok fn
      | _ =>
          match
            (if (filter_by_argument_count (args.length + kwargs.length)
                  (filter_by_name fn_name abi)).length = 0 then
              some Diagnosis.improperNumberOfArguments
            else if (filter_by_encodability is_encodable args kwargs
                  (filter_by_name fn_name abi)).length = 0 then
              some Diagnosis.noMatchingArgumentTypes
            else if 1 < (filter_by_encodability is_encodable args kwargs
                  (filter_by_name fn_name abi)).length then
              some Diagnosis.ambiguousEncoding
            else none) with
          | some d =>
              Except.error (.matchValidation
                ⟨fn_name, (filter_by_name fn_name abi).map abi_to_signature, d⟩)
          | none => Except.error .unboundDiagnosis) := rfl

/-- C3: a base transaction whose `value` field is absent or zero never fails
payable validation regardless of the entry's payable flag, and a non-zero
`value` against an entry whose `payable` flag is explicitly `False` makes
`prepare_transaction` fail with the payable `ValidationError` before any
transaction-request construction (in particular before the data-conflict
check and the destination defaulting). -/
theorem claim3_payable_validation {V : Type} (w3 : W3 V) (address : String)
    (fn_identifier : FnId) (contract_abi : Option (List ABIEntry)) (fa : ABIEntry)
    (t : TxParams) (fn_args : Option (List V)) (fn_kwargs : Option (List (String × V))) :
    (t.value = none ∨ t.value = some 0 → validate_payable (some t) fa = .ok ()) ∧
    (∀ v : Int, t.value = some v → v ≠ 0 → fa.payable = some false →
      prepare_transaction address w3 fn_identifier contract_abi (some fa) (some t)
        fn_args fn_kwargs = .error .payableValidation) := by
  constructor
  · rintro (hv | hv) <;> simp [validate_payable, hv]
  · intro v hv hnz hp
    simp [prepare_transaction, validate_payable, hv, hnz, hp]

/-- Witness for C3 at concrete inputs: a transaction without a `value` key
passes validation, and a transaction with `value = 1` against the
non-payable `f(uint256)` makes `prepare_transaction` raise the payable
error even though the base transaction also carries a `data` key. -/
theorem claim3_witness :
    validate_payable (some txWithTo) fnEntryF = .ok () ∧
    prepare_transaction "0xaddr" natW3 (.name "f") none (some fnEntryF) (some txDataValue)
      none none = .error .payableValidation :=
  ⟨(claim3_payable_validation natW3 "0xaddr" (.name "f") none fnEntryF txWithTo
      none none).1 (Or.inl rfl),
   (claim3_payable_validation natW3 "0xaddr" (.name "f") none fnEntryF txDataValue
      none none).2 1 rfl (by decide) rfl⟩

/-- C4 counterexample: a base transaction that already carries a `data` key
but also a non-zero `value` aimed at a non-payable entry fails with the
payable `ValidationError`, not the data-conflict `ValueError` — payable
validation runs first, so the claim "always fails with the data-conflict
error, regardless of other fields" is false. -/
theorem claim4_counterexample :
    prepare_transaction "0xaddr" natW3 (.name "f") none (some fnEntryF) (some txDataValue)
        none none = .error .payableValidation ∧
      Err.payableValidation ≠ Err.dataConflict := by
  constructor
  · rfl
  · decide

/-- C4 (amended): for every base transaction that already contains a `data`
field, `prepare_transaction` fails with the data-conflict error provided the
entry is resolved and payable validation passes; otherwise the earlier
resolution or payable error preempts it. -/
theorem claim4_data_conflict {V : Type} (w3 : W3 V) (address : String) (fn_identifier : FnId)
    (contract_abi : Option (List ABIEntry)) (fa : ABIEntry) (t : TxParams)
    (fn_args : Option (List V)) (fn_kwargs : Option (List (String × V)))
    (hd : t.data.isSome = true) (hp : validate_payable (some t) fa = .ok ()) :
    prepare_transaction address w3 fn_identifier contract_abi (some fa) (some t)
      fn_args fn_kwargs = .error .dataConflict := by
  simp [prepare_transaction, hp, hd]

/-- Witness for the amended C4 at concrete inputs: a data-carrying base
transaction with no `value` key fails with the data-conflict error. -/
theorem claim4_witness :
    prepare_transaction "0xaddr" natW3 (.name "f") none (some fnEntryF) (some txDataOnly)
      none none = .error .dataConflict :=
  claim4_data_conflict natW3 "0xaddr" (.name "f") none fnEntryF txDataOnly none none
    rfl rfl

/-- C5 (code bug): calling `prepare_transaction` with the base transaction
omitted always raises: `validate_payable` receives `None` and evaluating
`'value' in None` is a `TypeError` in Python, so the function's own
`transaction is None` handling is unreachable and no transaction request is
ever returned. -/
theorem claim5_none_transaction {V : Type} (w3 : W3 V) (address : String)
    (fn_identifier : FnId) (contract_abi : Option (List ABIEntry)) (fa : ABIEntry)
    (fn_args : Option (List V)) (fn_kwargs : Option (List (String × V))) :
    prepare_transaction address w3 fn_identifier contract_abi (some fa) none
      fn_args fn_kwargs = .error .noneTypeNotIterable := by
  simp [prepare_transaction, validate_payable]


/-- Unfolding equation for `find_matching_event_abi`: the filter-chain
candidates decide between the three outcomes. -/
theorem find_event_eq (abi : List ABIEntry) (event_name : Option String)
    (argument_names : Option (List String)) :
    find_matching_event_abi abi event_name argument_names =
      (match
        (match argument_names with
         | some ns =>
             filter_by_argument_name ns
               (match event_name with
                | some nm => filter_by_name nm (filter_by_type "event" abi)
                | none => filter_by_type "event" abi)
         | none =>
             match event_name with
             | some nm => filter_by_name nm (filter_by_type "event" abi)
             | none => filter_by_type "event" abi) with
      | [e] => Except.ok e
      | [] => Except.error Err.eventNotFound
      | _ => Except.error Err.multipleEventsFound) := rfl

/-- C6: `find_matching_event_abi` applied to the kind/name/argument-name
filter chain returns the single surviving entry when exactly one candidate
survives, fails with the not-found `ValueError` when zero survive, and fails
with the multiple-events `ValueError` when more than one survives. -/
theorem claim6_event_resolution (abi : List ABIEntry) (event_name : Option String)
    (argument_names : Option (List String)) (cands : List ABIEntry)
    (hc : cands =
      (match argument_names with
       | some ns =>
           filter_by_argument_name ns
             (match event_name with
              | some nm => filter_by_name nm (filter_by_type "event" abi)
              | none => filter_by_type "event" abi)
       | none =>
           match event_name with
           | some nm => filter_by_name nm (filter_by_type "event" abi)
           | none => filter_by_type "event" abi)) :
    (∀ e, cands = [e] →
      find_matching_event_abi abi event_name argument_names = .ok e) ∧
    (cands = [] →
      find_matching_event_abi abi event_name argument_names = .error .eventNotFound) ∧
    (1 < cands.length →
      find_matching_event_abi abi event_name argument_names =
        .error .multipleEventsFound) := by
  refine ⟨fun e he => ?_, fun he => ?_, fun hlen => ?_⟩ <;>
    rw [find_event_eq abi event_name argument_names, ← hc]
  · rw [he]
  · rw [he]
  · rcases cands with _ | ⟨a, _ | ⟨b, r⟩⟩
    · simp at hlen
    · simp at hlen
    · rfl

/-- Witness for C6 at concrete inputs: the ABI holds exactly one event named
`E`, and the chain's single survivor is returned. -/
theorem claim6_witness :
    find_matching_event_abi abiFull (some "E") none = .ok evEntryE :=
  (claim6_event_resolution abiFull (some "E") none
      (filter_by_name "E" (filter_by_type "event" abiFull)) rfl).1 evEntryE (by decide)

/-- C7: `encode_abi` raises the not-encodable `TypeError` exactly when the
arguments fail re-validation against the chosen entry's declared input
types, and on that error path the result is independent of the binary codec
encoder and of the normalizer — no codec encoding or normalization takes
place before the error. -/
theorem claim7_encode_abi_revalidation {V : Type} (w3 : W3 V) (abi : ABIEntry)
    (arguments : List V) (data : Option String) :
    (encode_abi w3 abi arguments data = .error .notEncodable ↔
      check_if_arguments_can_be_encoded abi w3.is_encodable arguments [] = false) ∧
    (check_if_arguments_can_be_encoded abi w3.is_encodable arguments [] = false →
      ∀ (enc : List String → List V → List Nat) (norm : String → V → V),
        encode_abi { w3 with encode := enc, normalizeOne := norm } abi arguments data =
          .error .notEncodable) := by
  cases hc : check_if_arguments_can_be_encoded abi w3.is_encodable arguments [] with
  | false =>
      refine ⟨⟨fun _ => rfl, fun _ => ?_⟩, fun _ enc norm => ?_⟩
      · simp [encode_abi, hc]
      · simp [encode_abi, hc]
  | true =>
      refine ⟨⟨fun h => ?_, fun h => ?_⟩, fun h => ?_⟩
      · exfalso
        revert h
        simp only [encode_abi, hc]
        cases data with
        | none => simp
        | some d => by_cases hd : d = "" <;> simp [hd]
      · exact absurd h (by simp)
      · exact absurd h (by simp)

/-- Witness for C7 at concrete inputs: a codec that rejects every value
makes `encode_abi` fail with the not-encodable error. -/
theorem claim7_witness :
    encode_abi natW3reject fnEntryF [7] none = .error .notEncodable :=
  (claim7_encode_abi_revalidation natW3reject fnEntryF [7] none).1.mpr (by decide)

/-- C9: for an ABI with no two entries sharing the same (name, arity, types)
triple, `find_matching_fn_abi` is deterministic — two runs on pairwise equal
inputs produce the same outcome (the embedding is a pure function, so equal
inputs yield equal results, selecting the same entry on success). -/
theorem claim9_deterministic {V : Type} (is_enc1 is_enc2 : String → V → Bool)
    (abi1 abi2 : List ABIEntry) (id1 id2 : FnId) (args1 args2 : List V)
    (kwargs1 kwargs2 : List (String × V))
    (_hdup : abi1.Pairwise (fun x y =>
      ¬(x.name = y.name ∧ x.inputs.length = y.inputs.length ∧
        get_abi_input_types x = get_abi_input_types y)))
    (he : is_enc1 = is_enc2) (ha : abi1 = abi2) (hi : id1 = id2) (hg : args1 = args2)
    (hk : kwargs1 = kwargs2) :
    find_matching_fn_abi (some abi1) is_enc1 id1 args1 kwargs1 =
      find_matching_fn_abi (some abi2) is_enc2 id2 args2 kwargs2 := by
  subst he
  subst ha
  subst hi
  subst hg
  subst hk
  rfl

/-- Witness for C9 at concrete inputs: the two-function ABI has no duplicate
(name, arity, types) triple, so both runs agree. -/
theorem claim9_witness :
    find_matching_fn_abi (some abiFnOnly) natW3.is_encodable (.name "f") [5] [] =
      find_matching_fn_abi (some abiFnOnly) natW3.is_encodable (.name "f") [5] [] :=
  claim9_deterministic natW3.is_encodable natW3.is_encodable abiFnOnly abiFnOnly
    (.name "f") (.name "f") [5] [5] [] [] (by decide) rfl rfl rfl rfl rfl

/-- C10: the Fallback and Receive markers bypass the filter chain entirely —
`find_matching_fn_abi` returns the sentinel lookup result for any supplied
arguments and any codec, and `encode_transaction_data` then encodes with an
empty selector and an empty argument list, silently ignoring any positional
or named arguments the caller passed. -/
theorem claim10_fallback_receive {V : Type} (w3 : W3 V) :
    (∀ (is_encodable : String → V → Bool) (contract_abi : Option (List ABIEntry))
        (args : List V) (kwargs : List (String × V)),
      find_matching_fn_abi contract_abi is_encodable .fallbackFn args kwargs =
        get_fallback_func_abi contract_abi) ∧
    (∀ (is_encodable : String → V → Bool) (contract_abi : Option (List ABIEntry))
        (args : List V) (kwargs : List (String × V)),
      find_matching_fn_abi contract_abi is_encodable .receiveFn args kwargs =
        get_receive_func_abi contract_abi) ∧
    (∀ (abi : List ABIEntry) (fb : ABIEntry) (args : Option (List V))
        (kwargs : Option (List (String × V))),
      get_fallback_func_abi (some abi) = .ok fb → fb.inputs = [] →
      encode_transaction_data w3 .fallbackFn (some abi) none args kwargs =
        .ok (encode_hex (w3.encode [] []))) ∧
    (∀ (abi : List ABIEntry) (rc : ABIEntry) (args : Option (List V))
        (kwargs : Option (List (String × V))),
      get_receive_func_abi (some abi) = .ok rc → rc.inputs = [] →
      encode_transaction_data w3 .receiveFn (some abi) none args kwargs =
        .ok (encode_hex (w3.encode [] []))) := by
  refine ⟨fun _ _ _ _ => rfl, fun _ _ _ _ => rfl, ?_, ?_⟩
  · intro abi fb args kwargs hfb hinputs
    have henc := encode_abi_ok w3 fb [] [] (by simp)
      (check_empty fb w3.is_encodable hinputs)
    unfold encode_transaction_data get_fallback_function_info
    rw [hfb]
    simp [Except.map, henc, get_abi_input_types, hinputs, map_abi_data,
      add_0x_prefix_encode_hex]
  · intro abi rc args kwargs hrc hinputs
    have henc := encode_abi_ok w3 rc [] [] (by simp)
      (check_empty rc w3.is_encodable hinputs)
    unfold encode_transaction_data get_receive_function_info
    rw [hrc]
    simp [Except.map, henc, get_abi_input_types, hinputs, map_abi_data,
      add_0x_prefix_encode_hex]

/-- Witness for C10 at concrete inputs: with caller-supplied positional and
named arguments, the Fallback invocation still resolves to the sentinel and
encodes to the bare codec output of the empty argument list. -/
theorem claim10_witness :
    encode_transaction_data natW3 .fallbackFn (some abiFull) none (some [9])
      (some [("x", 7)]) = .ok (encode_hex (natW3.encode [] [])) :=
  (claim10_fallback_receive natW3).2.2.1 abiFull fallbackEntry (some [9])
    (some [("x", 7)]) rfl rfl


/-- C8: `prepare_transaction` returns a fresh transaction request built by
copying the caller's base transaction forward — on success every field of
the base transaction other than `'data'` and a defaulted `'to'` is carried
over unchanged (the caller's mapping itself, being copied via
`dict(**transaction)`, is never written) — and the destination is set only
when the base transaction does not already contain one, never overwriting a
caller-supplied destination. -/
theorem claim8_prepare_frame {V : Type} (w3 : W3 V) (address : String)
    (fn_identifier : FnId) (contract_abi : Option (List ABIEntry))
    (fn_abi : Option ABIEntry) (t : TxParams) (fn_args : Option (List V))
    (fn_kwargs : Option (List (String × V))) (r : TxParams)
    (h : prepare_transaction address w3 fn_identifier contract_abi fn_abi (some t)
          fn_args fn_kwargs = .ok r) :
    r.value = t.value ∧ r.rest = t.rest ∧
    (∀ d0, t.toAddr = some d0 → r.toAddr = some d0) ∧
    (t.toAddr = none → r.toAddr = (if address = "" then none else some address)) ∧
    (∃ d, r.data = some d) := by
  unfold prepare_transaction at h
  rcases hres : (match fn_abi with
    | some fa => (Except.ok fa : Except Err ABIEntry)
    | none => find_matching_fn_abi contract_abi w3.is_encodable fn_identifier
        (fn_args.getD []) (fn_kwargs.getD [])) with e | fa
  · simp [hres] at h
  · simp only [hres] at h
    rcases hval : validate_payable (some t) fa with e' | u
    · simp [hval] at h
    · simp only [hval] at h
      rcases hd : t.data with _ | d0
      · rcases henc : encode_transaction_data w3 fn_identifier contract_abi (some fa)
            fn_args fn_kwargs with e'' | dstr
        · simp [hd, henc] at h
        · simp only [hd, henc, Option.isSome_none, Bool.false_eq_true, if_false,
            Except.ok.injEq] at h
          subst h
          by_cases haddr : address = ""
          · simp [haddr, hd]
          · rcases hto : t.toAddr with _ | dest <;> simp [haddr, hto, hd]
      · simp [hd] at h

/-- Witness for C8 at concrete inputs: preparing against a base transaction
that carries a destination and an extra field succeeds and yields a request
preserving both, with the destination untouched. -/
theorem claim8_witness :
    ({ toAddr := some "0xcafe", value := none, data := some "0x01020304ab"
       rest := [("gas", "21000")] } : TxParams).value = txWithTo.value ∧
    ({ toAddr := some "0xcafe", value := none, data := some "0x01020304ab"
       rest := [("gas", "21000")] } : TxParams).rest = txWithTo.rest ∧
    (∀ d0, txWithTo.toAddr = some d0 →
      ({ toAddr := some "0xcafe", value := none, data := some "0x01020304ab"
         rest := [("gas", "21000")] } : TxParams).toAddr = some d0) ∧
    (txWithTo.toAddr = none →
      ({ toAddr := some "0xcafe", value := none, data := some "0x01020304ab"
         rest := [("gas", "21000")] } : TxParams).toAddr =
        (if "0xaddr" = "" then none else some "0xaddr")) ∧
    (∃ d, ({ toAddr := some "0xcafe", value := none, data := some "0x01020304ab"
             rest := [("gas", "21000")] } : TxParams).data = some d) :=
  claim8_prepare_frame natW3 "0xaddr" (.name "f") none (some fnEntryF) txWithTo
    (some [5]) none
    { toAddr := some "0xcafe", value := none, data := some "0x01020304ab"
      rest := [("gas", "21000")] } (by rfl)

/-- C2: for a Function entry with an encodable argument list, the encoded
call data is the `0x`-prefixed hex string of the 4-byte selector (first 4
bytes of the hash of the canonical signature: name plus parenthesized
comma-joined parameter types) immediately followed by the codec's binary
encoding of the normalized arguments with no extra bytes; for Fallback and
Receive entries the selector part is empty. -/
theorem claim2_encode_transaction_data {V : Type} (w3 : W3 V)
    (hk : ∀ s : String, ∀ b ∈ w3.keccak s, b < 256) :
    (∀ (s : String) (contract_abi : Option (List ABIEntry)) (fa : ABIEntry) (args : List V),
      check_if_arguments_can_be_encoded fa w3.is_encodable args [] = true →
      encode_transaction_data w3 (.name s) contract_abi (some fa) (some args) none =
        .ok (encode_hex ((w3.keccak (abi_to_signature fa)).take 4 ++
          w3.encode (get_abi_input_types fa)
            (map_abi_data w3.normalizeOne (get_abi_input_types fa) args)))) ∧
    (∀ (contract_abi : Option (List ABIEntry)) (fa : ABIEntry) (args : Option (List V))
        (kwargs : Option (List (String × V))),
      fa.inputs = [] →
      encode_transaction_data w3 .fallbackFn contract_abi (some fa) args kwargs =
        .ok (encode_hex (w3.encode [] []))) ∧
    (∀ (contract_abi : Option (List ABIEntry)) (fa : ABIEntry) (args : Option (List V))
        (kwargs : Option (List (String × V))),
      fa.inputs = [] →
      encode_transaction_data w3 .receiveFn contract_abi (some fa) args kwargs =
        .ok (encode_hex (w3.encode [] []))) := by
  refine ⟨?_, ?_, ?_⟩
  · intro s contract_abi fa args hcheck
    have hlen : args.length = fa.inputs.length := by
      have := check_true_count fa w3.is_encodable args [] hcheck
      simpa using this
    have hmerge := merge_args_nil fa args hlen
    have hsel : ∀ b ∈ (w3.keccak (abi_to_signature fa)).take 4, b < 256 :=
      fun b hb => hk _ b (List.mem_of_mem_take hb)
    have henc := encode_abi_ok w3 fa args ((w3.keccak (abi_to_signature fa)).take 4)
      hsel hcheck
    unfold encode_transaction_data get_function_info
    simp [hmerge, function_abi_to_4byte_selector, get_aligned_abi_inputs, henc,
      Except.map, add_0x_prefix_encode_hex]
  · intro contract_abi fa args kwargs hin
    have henc := encode_abi_ok w3 fa [] [] (by simp)
      (check_empty fa w3.is_encodable hin)
    unfold encode_transaction_data get_fallback_function_info
    simp [henc, get_abi_input_types, hin, map_abi_data, Except.map,
      add_0x_prefix_encode_hex]
  · intro contract_abi fa args kwargs hin
    have henc := encode_abi_ok w3 fa [] [] (by simp)
      (check_empty fa w3.is_encodable hin)
    unfold encode_transaction_data get_receive_function_info
    simp [henc, get_abi_input_types, hin, map_abi_data, Except.map,
      add_0x_prefix_encode_hex]

/-- Witness for C2 at concrete inputs: encoding `f(uint256)` with argument
`5` yields the hex of the 4 selector bytes followed by the codec output. -/
theorem claim2_witness :
    encode_transaction_data natW3 (.name "f") none (some fnEntryF) (some [5]) none =
      .ok (encode_hex ((natW3.keccak (abi_to_signature fnEntryF)).take 4 ++
        natW3.encode (get_abi_input_types fnEntryF)
          (map_abi_data natW3.normalizeOne (get_abi_input_types fnEntryF) [5]))) :=
  (claim2_encode_transaction_data natW3
      (by intro s b hb; simp [natW3] at hb; omega)).1 "f" none fnEntryF [5] (by decide)

/-- C1: `find_matching_fn_abi` with a name identifier returns an entry
exactly when one candidate survives the name → argument-count →
encodability chain; in every other case it raises a `ValidationError` whose
diagnosis is computed by re-probing the stages over the name matches:
wrong argument count when zero survive the arity filter, else no matching
argument types when zero survive the encodability filter, else ambiguous
(and a diagnosis is produced in every failing case — the `UnboundLocalError`
arm is unreachable). -/
theorem claim1_fn_resolution {V : Type} (is_encodable : String → V → Bool)
    (abi : List ABIEntry) (fn_name : String) (args : List V)
    (kwargs : List (String × V)) :
    (∀ fn, filter_by_encodability is_encodable args kwargs
        (filter_by_argument_count (args.length + kwargs.length)
          (filter_by_name fn_name abi)) = [fn] →
      find_matching_fn_abi (some abi) is_encodable (.name fn_name) args kwargs =
        .ok fn) ∧
    ((filter_by_encodability is_encodable args kwargs
        (filter_by_argument_count (args.length + kwargs.length)
          (filter_by_name fn_name abi))).length ≠ 1 →
      find_matching_fn_abi (some abi) is_encodable (.name fn_name) args kwargs =
        .error (.matchValidation
          { fnIdentifier := fn_name
            matchingSignatures := (filter_by_name fn_name abi).map abi_to_signature
            diagnosis :=
              if (filter_by_argument_count (args.length + kwargs.length)
                    (filter_by_name fn_name abi)).length = 0 then
                .improperNumberOfArguments
              else if (filter_by_encodability is_encodable args kwargs
                    (filter_by_name fn_name abi)).length = 0 then
                .noMatchingArgumentTypes
              else .ambiguousEncoding })) := by
  have hsub := filter_by_encodability_arg_count is_encodable args kwargs
    (filter_by_name fn_name abi)
  constructor
  · intro fn hfn
    rw [find_name_eq, hfn]
  · intro hne
    rw [find_name_eq]
    rcases hchain : filter_by_encodability is_encodable args kwargs
        (filter_by_argument_count (args.length + kwargs.length)
          (filter_by_name fn_name abi)) with _ | ⟨a, _ | ⟨b, rest⟩⟩
    · have hem : (filter_by_encodability is_encodable args kwargs
          (filter_by_name fn_name abi)).length = 0 := by
        rw [← hsub, hchain]
        rfl
      by_cases hacm : (filter_by_argument_count (args.length + kwargs.length)
          (filter_by_name fn_name abi)).length = 0
      · simp [hacm]
      · simp [hacm, hem]
    · rw [hchain] at hne
      simp at hne
    · have hem : (filter_by_encodability is_encodable args kwargs
          (filter_by_name fn_name abi)).length = rest.length + 2 := by
        rw [← hsub, hchain]
        simp
      have hem0 : ¬((filter_by_encodability is_encodable args kwargs
          (filter_by_name fn_name abi)).length = 0) := by omega
      have hem1 : 1 < (filter_by_encodability is_encodable args kwargs
          (filter_by_name fn_name abi)).length := by omega
      by_cases hacm : (filter_by_argument_count (args.length + kwargs.length)
          (filter_by_name fn_name abi)).length = 0
      · simp [hacm]
      · simp [hacm, hem0, hem1]

/-- Witness for C1 at concrete inputs: exactly one overload of `f` survives
the chain and is returned. -/
theorem claim1_witness :
    find_matching_fn_abi (some abiFnOnly) natW3.is_encodable (.name "f") [5] [] =
      .ok fnEntryF :=
  (claim1_fn_resolution natW3.is_encodable abiFnOnly "f" [5] []).1 fnEntryF (by decide)
